import Mathlib

/-!
Shallow embedding of the scanner core of the BOT repository
(scanner/heuristic.py, scanner/severity.py, scanner/contract_queue.py,
scanner/idempotent_worker.py, scanner/fee_on_transfer_probe.py,
scanner/worker.py), together with theorems settling the specification
claims about it.  Pure Python functions become Lean functions; the
module-level mutable state (queues, ledger file, TTL caches, in-flight
sets) becomes explicit state values threaded through the operations;
exceptions become `Except`; `time.time()` becomes an explicit natural
number clock argument.
-/

namespace BotScanner

/-- EVM instruction as produced by the disassembler in scanner/heuristic.py.
The source represents an instruction as a pair `(name, arg)`: a push
instruction is `("PUSH{n}", arg)` where `arg` is the hex string of the
operand bytes, and every other opcode is `(name, None)`.  `push n arg`
carries the declared operand length `n` (encoded in the name in the
source) and the operand byte list (the hex-string operand of the source
is the image of this byte list under `bytes.hex()`, a bijection). -/
inductive Instr where
  | push (n : Nat) (arg : List Nat)
  | op (name : String)
deriving DecidableEq

/-- The `(name, arg)` pair's name component. -/
def Instr.name : Instr → String
  | .push n _ => "PUSH" ++ toString n
  | .op s => s

/-- Lowercase hex digit for a value below 16 (`0`–`9`, `a`–`f`). -/
def hexDigit (n : Nat) : Char :=
  if n < 10 then Char.ofNat (48 + n) else Char.ofNat (87 + n)

/-- Lowercase `%02x` rendering of a byte value, as used for the generic
tag of unknown opcodes. -/
def byteHex (n : Nat) : String :=
  String.mk [hexDigit (n / 16), hexDigit (n % 16)]

/-- `_OPCODE_TABLE.get(op, "OP_%02x" % op)` from scanner/heuristic.py. -/
def opcodeName (op : Nat) : String :=
  match op with
  | 0x01 => "ADD"
  | 0x02 => "MUL"
  | 0x03 => "SUB"
  | 0x04 => "DIV"
  | 0x05 => "SDIV"
  | 0x06 => "MOD"
  | 0x07 => "SMOD"
  | 0x3a => "GASPRICE"
  | 0x42 => "TIMESTAMP"
  | 0x48 => "BASEFEE"
  | 0x54 => "SLOAD"
  | 0x55 => "SSTORE"
  | 0xF0 => "CREATE"
  | 0xF1 => "CALL"
  | 0xF4 => "DELEGATECALL"
  | 0xF5 => "CREATE2"
  | 0xFA => "STATICCALL"
  | 0xFF => "SELFDESTRUCT"
  | 0x3B => "EXTCODESIZE"
  | 0x3C => "EXTCODECOPY"
  | 0x3F => "EXTCODEHASH"
  | _ => "OP_" ++ byteHex op

/-- Fuel-indexed form of the disassembler loop of scanner/heuristic.py
(the fuel only serves structural recursion; `disassemble` supplies
enough of it for the loop never to run dry).  Opcode values
`0x60`–`0x7F` are pushes taking `op - 0x5F` operand bytes (the slice
`byte_data[i+1:i+1+n]`, which truncates silently at the end of the
input); every other byte is a single opcode looked up in the table with
the generic `OP_xx` fallback. -/
def disassembleAux : Nat → List Nat → List Instr
  | 0, _ => []
  | _ + 1, [] => []
  | fuel + 1, op :: rest =>
    if 0x60 ≤ op ∧ op ≤ 0x7F then
      Instr.push (op - 0x5F) (rest.take (op - 0x5F)) ::
        disassembleAux fuel (rest.drop (op - 0x5F))
    else
      Instr.op (opcodeName op) :: disassembleAux fuel rest

/-- `_disassemble` from scanner/heuristic.py, on the byte-list form of
the input. -/
def disassemble (bs : List Nat) : List Instr := disassembleAux bs.length bs

/-- The signal-counter dictionary built by `analyze_bytecode`. -/
structure SignalCounts where
  arith : Nat
  div_mod : Nat
  state : Nat
  calls : Nat
  small_consts : Nat
  interesting_ops : Nat
  total_ops : Nat
deriving DecidableEq

def ARITH_OPS : List String := ["ADD", "SUB", "MUL", "DIV", "MOD", "SDIV", "SMOD"]
def STATE_OPS : List String := ["SSTORE", "SLOAD"]
def FLOW_OPS : List String := ["CALL", "DELEGATECALL", "STATICCALL"]
def DIV_OPS : List String := ["DIV", "SDIV", "MOD", "SMOD"]
def INTERESTING_OPS : List String :=
  ["TIMESTAMP", "GASPRICE", "BASEFEE", "SELFDESTRUCT", "DELEGATECALL", "CREATE", "CREATE2"]
def CONST_SMALL_THRESHOLD : Nat := 1000

/-- `int(arg, 16)` of a push operand, on the byte-list form of the operand. -/
def pushValue (arg : List Nat) : Nat := arg.foldl (fun a b => 256 * a + b) 0

/-- The small-constant test of the counting loop:
`op.startswith("PUSH") and arg` (an empty operand string is falsy) and
the decoded value lies in `(0, CONST_SMALL_THRESHOLD]`. -/
def isSmallConst : Instr → Bool
  | .push _ arg => !arg.isEmpty && decide (0 < pushValue arg ∧ pushValue arg ≤ CONST_SMALL_THRESHOLD)
  | .op _ => false

/-- The counting loop of `analyze_bytecode` over the instruction list. -/
def countsOf (ops : List Instr) : SignalCounts :=
  { arith := ops.countP (fun i => ARITH_OPS.contains i.name)
    div_mod := ops.countP (fun i => DIV_OPS.contains i.name)
    state := ops.countP (fun i => STATE_OPS.contains i.name)
    calls := ops.countP (fun i => FLOW_OPS.contains i.name)
    small_consts := ops.countP isSmallConst
    interesting_ops := ops.countP (fun i => INTERESTING_OPS.contains i.name)
    total_ops := ops.length }

/-- One hex digit's value, as accepted by Python's `bytes.fromhex`. -/
def hexVal (c : Char) : Option Nat :=
  if 48 ≤ c.toNat ∧ c.toNat ≤ 57 then some (c.toNat - 48)
  else if 97 ≤ c.toNat ∧ c.toNat ≤ 102 then some (c.toNat - 87)
  else if 65 ≤ c.toNat ∧ c.toNat ≤ 70 then some (c.toNat - 55)
  else none

/-- `Py_ISSPACE`: the ASCII whitespace characters skipped by
`bytes.fromhex` (space 0x20 and 0x09–0x0D). -/
def isPySpace (c : Char) : Bool :=
  decide (c.toNat = 32 ∨ (9 ≤ c.toNat ∧ c.toNat ≤ 13))

/-- `bytes.fromhex`: ASCII whitespace is skipped before each byte pair
(and trailing whitespace is allowed), then exactly two hex digits are
consumed back to back — whitespace between the two digits of a pair, a
non-hex character in digit position, or a dangling single digit yields
`none` (a `ValueError` in Python). -/
def bytesFromHex : List Char → Option (List Nat)
  | [] => some []
  | c :: rest =>
    if isPySpace c then bytesFromHex rest
    else
      match hexVal c, rest with
      | none, _ => none
      | some _, [] => none
      | some h, c2 :: rest2 =>
        match hexVal c2, bytesFromHex rest2 with
        | some l, some tail => some ((16 * h + l) :: tail)
        | _, _ => none

/-- `bytecode.startswith("0x")`: the first two characters are `0x`. -/
def startsWith0x (s : String) : Bool :=
  match s.data with
  | '0' :: 'x' :: _ => true
  | _ => false

/-- The prefix-stripping step of `analyze_bytecode`. -/
def stripHexPrefix (s : String) : String :=
  if startsWith0x s then s.drop 2 else s

/-- `analyze_bytecode` from scanner/heuristic.py: strip an optional `0x`
prefix, disassemble, count.  The source has no exception handler, so a
malformed hex string raises `ValueError` out of the function; `Except`
models the raise. -/
def analyze_bytecode (bytecode : String) : Except String SignalCounts :=
  match bytesFromHex (stripHexPrefix bytecode).data with
  | none => Except.error "ValueError: non-hexadecimal number found in fromhex() arg"
  | some bs => Except.ok (countsOf (disassemble bs))

/-- `prefilter_pass` from scanner/heuristic.py, branch for branch
(note that every branch, including the final fallback, returns `True`). -/
def prefilter_pass (signals : SignalCounts) : Bool :=
  if signals.interesting_ops > 0 then true
  else if signals.calls > 0 ∧ signals.state > 0 then true
  else if signals.total_ops > 0 then true
  else true

/-- The impact dictionary fields read by `score_severity`. -/
structure Impact where
  is_exploit : Bool
  stealable_wei : Nat
deriving DecidableEq

/-- `score_severity` from scanner/severity.py. -/
def score_severity (signals : SignalCounts) (impact : Impact) : Nat :=
  let s1 := min signals.arith 4 + min signals.div_mod 3 + min signals.state 3 +
    min signals.small_consts 2
  let s2 := if impact.is_exploit then s1 + 2 else s1
  let s3 := if impact.stealable_wei > 10 ^ 18 then s2 + 1 else s2
  min s3 10

/-- Number of input bytes accounted for by one decoded instruction: its
opcode byte plus the operand bytes it actually carries. -/
def instrSize : Instr → Nat
  | .push _ arg => 1 + arg.length
  | .op _ => 1

/-- Total number of input bytes accounted for by a decoded stream. -/
def consumedLen (l : List Instr) : Nat := (l.map instrSize).sum

theorem disassembleAux_nil (fuel : Nat) : disassembleAux fuel [] = [] := by
  cases fuel <;> rfl

theorem disassembleAux_fuel (f₁ : Nat) :
    ∀ (f₂ : Nat) (bs : List Nat), bs.length ≤ f₁ → bs.length ≤ f₂ →
      disassembleAux f₁ bs = disassembleAux f₂ bs := by
  induction f₁ with
  | zero =>
    intro f₂ bs h₁ _
    have hbs : bs = [] := List.length_eq_zero.mp (Nat.le_zero.mp h₁)
    subst hbs
    rw [disassembleAux_nil, disassembleAux_nil]
  | succ k ih =>
    intro f₂ bs h₁ h₂
    cases bs with
    | nil => rw [disassembleAux_nil, disassembleAux_nil]
    | cons op rest =>
      cases f₂ with
      | zero => simp at h₂
      | succ m =>
        simp only [List.length_cons, Nat.succ_le_succ_iff] at h₁ h₂
        simp only [disassembleAux]
        by_cases hop : 0x60 ≤ op ∧ op ≤ 0x7F
        · rw [if_pos hop, if_pos hop]
          have hd : (rest.drop (op - 0x5F)).length ≤ rest.length := by
            simp only [List.length_drop]
            omega
          exact congrArg _ (ih m _ (le_trans hd h₁) (le_trans hd h₂))
        · rw [if_neg hop, if_neg hop]
          exact congrArg _ (ih m rest h₁ h₂)

theorem disassemble_cons (op : Nat) (rest : List Nat) :
    disassemble (op :: rest) =
      if 0x60 ≤ op ∧ op ≤ 0x7F then
        Instr.push (op - 0x5F) (rest.take (op - 0x5F)) ::
          disassemble (rest.drop (op - 0x5F))
      else
        Instr.op (opcodeName op) :: disassemble rest := by
  show disassembleAux (op :: rest).length (op :: rest) = _
  simp only [List.length_cons, disassembleAux]
  by_cases hop : 0x60 ≤ op ∧ op ≤ 0x7F
  · rw [if_pos hop, if_pos hop]
    refine congrArg _ (disassembleAux_fuel _ _ _ ?_ le_rfl)
    simp only [List.length_drop]
    omega
  · rw [if_neg hop, if_neg hop]
    exact congrArg _ (disassembleAux_fuel _ _ _ le_rfl le_rfl)

theorem consumedLen_aux (fuel : Nat) :
    ∀ bs : List Nat, bs.length ≤ fuel →
      consumedLen (disassembleAux fuel bs) = bs.length := by
  induction fuel with
  | zero =>
    intro bs h
    have hbs : bs = [] := List.length_eq_zero.mp (Nat.le_zero.mp h)
    subst hbs
    rfl
  | succ k ih =>
    intro bs h
    cases bs with
    | nil => rfl
    | cons op rest =>
      simp only [List.length_cons, Nat.succ_le_succ_iff] at h
      simp only [disassembleAux]
      by_cases hop : 0x60 ≤ op ∧ op ≤ 0x7F
      · rw [if_pos hop]
        simp only [consumedLen, List.map_cons, List.sum_cons, instrSize,
          List.length_take]
        have := ih (rest.drop (op - 0x5F)) (by simp only [List.length_drop]; omega)
        simp only [consumedLen] at this
        rw [this]
        simp only [List.length_drop, List.length_cons]
        omega
      · rw [if_neg hop]
        simp only [consumedLen, List.map_cons, List.sum_cons, instrSize,
          List.length_cons]
        have := ih rest h
        simp only [consumedLen] at this
        omega

theorem pushArg_le_aux (fuel : Nat) :
    ∀ (bs : List Nat) (n : Nat) (arg : List Nat), bs.length ≤ fuel →
      Instr.push n arg ∈ disassembleAux fuel bs → arg.length ≤ n := by
  induction fuel with
  | zero =>
    intro bs n arg h hmem
    have hbs : bs = [] := List.length_eq_zero.mp (Nat.le_zero.mp h)
    subst hbs
    simp [disassembleAux_nil] at hmem
  | succ k ih =>
    intro bs n arg h hmem
    cases bs with
    | nil => simp [disassembleAux_nil] at hmem
    | cons op rest =>
      simp only [List.length_cons, Nat.succ_le_succ_iff] at h
      simp only [disassembleAux] at hmem
      by_cases hop : 0x60 ≤ op ∧ op ≤ 0x7F
      · rw [if_pos hop] at hmem
        rcases List.mem_cons.mp hmem with heq | hmem'
        · cases heq
          rw [List.length_take]
          exact Nat.min_le_left _ _
        · exact ih _ n arg (by simp only [List.length_drop]; omega) hmem'
      · rw [if_neg hop] at hmem
        rcases List.mem_cons.mp hmem with heq | hmem'
        · exact Instr.noConfusion heq
        · exact ih rest n arg h hmem'

theorem truncPush_last_aux (fuel : Nat) :
    ∀ (bs : List Nat) (l₁ : List Instr) (n : Nat) (arg : List Nat) (l₂ : List Instr),
      bs.length ≤ fuel →
      disassembleAux fuel bs = l₁ ++ Instr.push n arg :: l₂ →
      arg.length < n → l₂ = [] := by
  induction fuel with
  | zero =>
    intro bs l₁ n arg l₂ h heq _
    have hbs : bs = [] := List.length_eq_zero.mp (Nat.le_zero.mp h)
    subst hbs
    rw [disassembleAux_nil] at heq
    exact absurd heq.symm (List.append_ne_nil_of_right_ne_nil _ (List.cons_ne_nil _ _))
  | succ k ih =>
    intro bs l₁ n arg l₂ h heq hlt
    cases bs with
    | nil =>
      rw [disassembleAux_nil] at heq
      exact absurd heq.symm (List.append_ne_nil_of_right_ne_nil _ (List.cons_ne_nil _ _))
    | cons op rest =>
      simp only [List.length_cons, Nat.succ_le_succ_iff] at h
      simp only [disassembleAux] at heq
      by_cases hop : 0x60 ≤ op ∧ op ≤ 0x7F
      · rw [if_pos hop] at heq
        cases l₁ with
        | nil =>
          simp only [List.nil_append, List.cons.injEq] at heq
          obtain ⟨hpush, hl₂⟩ := heq
          cases hpush
          -- a truncated operand means the input ended inside it
          have hshort : rest.length < op - 0x5F := by
            have := List.length_take (op - 0x5F) rest
            omega
          have hdrop : rest.drop (op - 0x5F) = [] :=
            List.drop_eq_nil_of_le (le_of_lt hshort)
          rw [hdrop, disassembleAux_nil] at hl₂
          exact hl₂.symm
        | cons x l₁' =>
          simp only [List.cons_append, List.cons.injEq] at heq
          exact ih _ l₁' n arg l₂ (by simp only [List.length_drop]; omega) heq.2 hlt
      · rw [if_neg hop] at heq
        cases l₁ with
        | nil =>
          simp only [List.nil_append, List.cons.injEq] at heq
          exact Instr.noConfusion heq.1
        | cons x l₁' =>
          simp only [List.cons_append, List.cons.injEq] at heq
          exact ih rest l₁' n arg l₂ h heq.2 hlt

/-- C5 (corrected).  The decoder is total, and the decoded instructions
account for exactly the input length with no gap or overlap; every push
carries at most its declared number `n` of operand bytes, and a push
whose operand is shorter than `n` (the input ended inside the operand)
can only be the final decoded instruction.  The original claim that a
push always carries exactly `n` operand bytes fails on inputs that end
inside a push operand. -/
theorem claim_C5 (bs : List Nat) :
    consumedLen (disassemble bs) = bs.length ∧
    (∀ (n : Nat) (arg : List Nat), Instr.push n arg ∈ disassemble bs → arg.length ≤ n) ∧
    (∀ (l₁ : List Instr) (n : Nat) (arg : List Nat) (l₂ : List Instr),
      disassemble bs = l₁ ++ Instr.push n arg :: l₂ → arg.length < n → l₂ = []) :=
  ⟨consumedLen_aux bs.length bs le_rfl,
   fun n arg => pushArg_le_aux bs.length bs n arg le_rfl,
   fun l₁ n arg l₂ => truncPush_last_aux bs.length bs l₁ n arg l₂ le_rfl⟩

/-- C5 witness: the theorem applied to the concrete input `[0x61, 5]`
(a PUSH2 whose operand is cut short by the end of the input). -/
theorem claim_C5_witness :
    consumedLen (disassemble [0x61, 5]) = 2 ∧
    (Instr.push 2 [5] ∈ disassemble [0x61, 5] ∧ ([5] : List Nat).length ≤ 2) ∧
    (disassemble [0x61, 5] = [] ++ Instr.push 2 [5] :: [] ∧
      ([5] : List Nat).length < 2 ∧ ([] : List Instr) = []) :=
  ⟨(claim_C5 [0x61, 5]).1,
   ⟨by decide, (claim_C5 [0x61, 5]).2.1 2 [5] (by decide)⟩,
   ⟨by decide, by decide, (claim_C5 [0x61, 5]).2.2 [] 2 [5] [] (by decide) (by decide)⟩⟩

/-- C5 counterexample to the claim as stated: on the input `[0x61]`
(a bare PUSH2 opcode) the decoded push instruction carries zero operand
bytes, not its declared two. -/
theorem claim_C5_counterexample :
    disassemble [0x61] = [Instr.push 2 []] ∧ ([] : List Nat).length ≠ 2 :=
  ⟨rfl, by decide⟩

theorem isPySpace_of_hexVal (c : Char) (d : Nat) (h : hexVal c = some d) :
    isPySpace c = false := by
  unfold hexVal at h
  simp only [isPySpace, decide_eq_false_iff_not]
  split_ifs at h with h1 h2 h3
  all_goals omega

theorem bytesFromHex_some :
    ∀ (l : List Char) (bs : List Nat), bytesFromHex l = some bs →
      (l.filter (fun c => !isPySpace c)).length % 2 = 0 ∧
      ∀ c ∈ l, isPySpace c = false → (hexVal c).isSome
  | [], _, _ => ⟨rfl, by simp⟩
  | c :: rest, bs, h => by
    unfold bytesFromHex at h
    by_cases hsp : isPySpace c = true
    · rw [if_pos hsp] at h
      obtain ⟨heven, hall⟩ := bytesFromHex_some rest bs h
      refine ⟨?_, ?_⟩
      · rw [List.filter_cons]
        simp only [hsp, Bool.not_true, Bool.false_eq_true, if_false]
        exact heven
      · intro x hx hxs
        rcases List.mem_cons.mp hx with rfl | hx'
        · rw [hsp] at hxs
          exact Bool.noConfusion hxs
        · exact hall x hx' hxs
    · rw [if_neg hsp] at h
      cases hv : hexVal c with
      | none => rw [hv] at h; exact Option.noConfusion h
      | some d =>
        rw [hv] at h
        cases rest with
        | nil => exact Option.noConfusion h
        | cons c2 rest2 =>
          have h' : (match hexVal c2, bytesFromHex rest2 with
              | some l, some tail => some ((16 * d + l) :: tail)
              | _, _ => none) = some bs := h
          cases hv2 : hexVal c2 with
          | none => rw [hv2] at h'; exact Option.noConfusion h'
          | some d2 =>
            rw [hv2] at h'
            cases hrest : bytesFromHex rest2 with
            | none => rw [hrest] at h'; exact Option.noConfusion h'
            | some tail =>
              obtain ⟨heven, hall⟩ := bytesFromHex_some rest2 tail hrest
              have hs1 : isPySpace c = false := isPySpace_of_hexVal c d hv
              have hs2 : isPySpace c2 = false := isPySpace_of_hexVal c2 d2 hv2
              refine ⟨?_, ?_⟩
              · rw [List.filter_cons, List.filter_cons]
                simp only [hs1, hs2, Bool.not_false, if_true, List.length_cons]
                omega
              · intro x hx hxs
                rcases List.mem_cons.mp hx with rfl | hx'
                · simp [hv]
                · rcases List.mem_cons.mp hx' with rfl | hx''
                  · simp [hv2]
                  · exact hall x hx'' hxs

/-- C6 (corrected).  A malformed bytecode hex string — after stripping
the optional `0x` prefix, an odd number of non-whitespace characters, or
a non-hex character outside the ASCII whitespace that `bytes.fromhex`
skips — makes `analyze_bytecode` raise `ValueError` (the source has no
handler around `bytes.fromhex`); it does not degrade to an empty
SignalVector.  The swallow-everything boundary sits in the worker loop,
not in the signal extractor. -/
theorem claim_C6 (s : String)
    (h : ((stripHexPrefix s).data.filter (fun c => !isPySpace c)).length % 2 = 1 ∨
      ∃ c ∈ (stripHexPrefix s).data, isPySpace c = false ∧ hexVal c = none) :
    analyze_bytecode s =
      Except.error "ValueError: non-hexadecimal number found in fromhex() arg" := by
  unfold analyze_bytecode
  cases hparse : bytesFromHex (stripHexPrefix s).data with
  | none => rfl
  | some bs =>
    exfalso
    obtain ⟨heven, hall⟩ := bytesFromHex_some _ bs hparse
    rcases h with hodd | ⟨c, hc, hcs, hbad⟩
    · omega
    · have := hall c hc hcs
      rw [hbad] at this
      simp at this

/-- C6 witness: the theorem applied to the input `"0x123"`, whose
stripped form has an odd number of non-whitespace characters. -/
theorem claim_C6_witness :
    ((stripHexPrefix "0x123").data.filter (fun c => !isPySpace c)).length % 2 = 1 ∧
    analyze_bytecode "0x123" =
      Except.error "ValueError: non-hexadecimal number found in fromhex() arg" :=
  ⟨by decide, claim_C6 "0x123" (Or.inl (by decide))⟩

/-- C6 counterexample to the claim as stated: on the malformed input
`"abc"` the extractor raises (returns an error), it does not return the
all-zero SignalVector. -/
theorem claim_C6_counterexample :
    analyze_bytecode "abc" =
      Except.error "ValueError: non-hexadecimal number found in fromhex() arg" ∧
    analyze_bytecode "abc" ≠ Except.ok ⟨0, 0, 0, 0, 0, 0, 0⟩ := by
  have h : analyze_bytecode "abc" =
      Except.error "ValueError: non-hexadecimal number found in fromhex() arg" := rfl
  exact ⟨h, by rw [h]; exact fun hc => Except.noConfusion hc⟩

/-- C1 (amended part).  `prefilter_pass` returns `True` on every signal
vector — every branch of the source, including the final fallback,
returns `True`, so the structural filter never rejects anything and the
vault/dust/fee-on-transfer override branch guarded by
`if not prefilter_pass(signals)` in scanner/main.py is unreachable. -/
theorem claim_C1 (signals : SignalCounts) : prefilter_pass signals = true := by
  unfold prefilter_pass
  split <;> [rfl; skip]
  split <;> [rfl; skip]
  split <;> rfl

/-- C1 counterexample to the claim as stated: the bytecode `"0x00"` (a
single STOP) has zero arithmetic, storage and interesting ops, yet
`prefilter_pass` returns `True`, not `False`. -/
theorem claim_C1_counterexample :
    analyze_bytecode "0x00" = Except.ok ⟨0, 0, 0, 0, 0, 0, 1⟩ ∧
    prefilter_pass ⟨0, 0, 0, 0, 0, 0, 1⟩ = true :=
  ⟨rfl, rfl⟩

/-- C9 (confirmed).  The severity score is an integer in `[0, 10]` (the
counters and the score are naturals, so the lower bound is inherent) and
is monotone in the signal counters: increasing any counters while
keeping the impact fixed never decreases the score. -/
theorem claim_C9 (s₁ s₂ : SignalCounts) (i : Impact)
    (h₁ : s₁.arith ≤ s₂.arith) (h₂ : s₁.div_mod ≤ s₂.div_mod)
    (h₃ : s₁.state ≤ s₂.state) (h₄ : s₁.calls ≤ s₂.calls)
    (h₅ : s₁.small_consts ≤ s₂.small_consts)
    (h₆ : s₁.interesting_ops ≤ s₂.interesting_ops)
    (h₇ : s₁.total_ops ≤ s₂.total_ops) :
    score_severity s₁ i ≤ score_severity s₂ i ∧ score_severity s₂ i ≤ 10 := by
  simp only [score_severity]
  split_ifs <;> constructor <;> omega

/-- C9 witness: the theorem applied to two concrete signal vectors that
differ by an increase of the division counter, with exploitable impact. -/
theorem claim_C9_witness :
    ((1 : Nat) ≤ 1 ∧ (2 : Nat) ≤ 5 ∧ (0 : Nat) ≤ 0 ∧ (0 : Nat) ≤ 0 ∧
      (1 : Nat) ≤ 1 ∧ (0 : Nat) ≤ 0 ∧ (3 : Nat) ≤ 6) ∧
    score_severity ⟨1, 2, 0, 0, 1, 0, 3⟩ ⟨true, 2 * 10 ^ 18⟩ ≤
        score_severity ⟨1, 5, 0, 0, 1, 0, 6⟩ ⟨true, 2 * 10 ^ 18⟩ ∧
      score_severity ⟨1, 5, 0, 0, 1, 0, 6⟩ ⟨true, 2 * 10 ^ 18⟩ ≤ 10 :=
  ⟨by omega,
   claim_C9 ⟨1, 2, 0, 0, 1, 0, 3⟩ ⟨1, 5, 0, 0, 1, 0, 6⟩ ⟨true, 2 * 10 ^ 18⟩
     (by decide) (by decide) (by decide) (by decide) (by decide) (by decide) (by decide)⟩

/-- ASCII `str.lower` on one character (contract addresses are ASCII hex,
so this coincides with Python's `lower`). -/
def asciiLower (c : Char) : Char :=
  if 65 ≤ c.toNat ∧ c.toNat ≤ 90 then Char.ofNat (c.toNat + 32) else c

/-- `address.lower()` for ASCII strings. -/
def pyLower (s : String) : String := String.mk (s.data.map asciiLower)

/-- The module-level state of scanner/contract_queue.py: the normal FIFO
deque, the priority FIFO deque and the seen set (the set is modelled as
a list queried through `contains`). -/
structure QueueState where
  queue : List String
  priority : List String
  seen : List String
deriving DecidableEq

/-- `init` from scanner/contract_queue.py. -/
def queueInit : QueueState := ⟨[], [], []⟩

/-- `enqueue` from scanner/contract_queue.py: empty addresses are
dropped, the address is lower-cased, and a seen address is not added
again; otherwise it is recorded as seen and appended to the normal
queue. -/
def enqueue (address : String) (st : QueueState) : QueueState :=
  if address = "" then st
  else
    let a := pyLower address
    if st.seen.contains a then st
    else { st with seen := a :: st.seen, queue := st.queue ++ [a] }

/-- `enqueue_priority` from scanner/contract_queue.py: the address is
added to the seen set if new, and appended to the priority queue
unconditionally (the seen check is deliberately bypassed). -/
def enqueue_priority (address : String) (st : QueueState) : QueueState :=
  if address = "" then st
  else
    let a := pyLower address
    { st with
        seen := if st.seen.contains a then st.seen else a :: st.seen,
        priority := st.priority ++ [a] }

/-- `next_new` from scanner/contract_queue.py: pop from the priority
queue first, then from the normal queue, else return `None`. -/
def next_new (st : QueueState) : Option String × QueueState :=
  match st.priority with
  | p :: rest => (some p, { st with priority := rest })
  | [] =>
    match st.queue with
    | q :: rest => (some q, { st with queue := rest })
    | [] => (none, st)

/-- Number of entries for an address across both queues. -/
def countEntries (st : QueueState) (a : String) : Nat :=
  st.queue.count a + st.priority.count a

/-- C7 (confirmed).  For a fresh non-empty address, two `enqueue` calls
leave exactly one entry across the queues (the second is dropped by the
seen-set dedup), while an `enqueue_priority` after an `enqueue` leaves
two entries, because the priority path appends without consulting the
seen set. -/
theorem claim_C7 (st : QueueState) (addr : String)
    (hne : addr ≠ "")
    (hseen : st.seen.contains (pyLower addr) = false)
    (hcount : countEntries st (pyLower addr) = 0) :
    countEntries (enqueue addr (enqueue addr st)) (pyLower addr) = 1 ∧
    countEntries (enqueue_priority addr (enqueue addr st)) (pyLower addr) = 2 := by
  have hq : st.queue.count (pyLower addr) = 0 := by
    unfold countEntries at hcount
    omega
  have hp : st.priority.count (pyLower addr) = 0 := by
    unfold countEntries at hcount
    omega
  have hseen' : pyLower addr ∉ st.seen := by simpa using hseen
  unfold enqueue enqueue_priority countEntries
  simp [hne, hseen', List.count_append, List.count_cons, List.count_nil, hq, hp]

/-- The three-enqueue scenario of C8: A then B to priority, C to normal. -/
def c8state (a b c : String) (st : QueueState) : QueueState :=
  enqueue c (enqueue_priority b (enqueue_priority a st))

/-- C8 (confirmed).  Dequeue drains the priority queue first, then the
normal queue, FIFO within each: starting from empty queues, after
enqueueing A then B to priority and C to normal, successive `next_new`
calls return A, B, C; a fourth call on the then-empty queues returns
`None` (and leaves the state unchanged) without blocking. -/
theorem claim_C8 (st : QueueState) (a b c : String)
    (hpq : st.priority = []) (hq : st.queue = [])
    (ha : a ≠ "") (hb : b ≠ "") (hc : c ≠ "")
    (hcs : st.seen.contains (pyLower c) = false)
    (hca : pyLower c ≠ pyLower a) (hcb : pyLower c ≠ pyLower b) :
    (next_new (c8state a b c st)).1 = some (pyLower a) ∧
    (next_new (next_new (c8state a b c st)).2).1 = some (pyLower b) ∧
    (next_new (next_new (next_new (c8state a b c st)).2).2).1 = some (pyLower c) ∧
    next_new (next_new (next_new (next_new (c8state a b c st)).2).2).2 =
      (none, (next_new (next_new (next_new (c8state a b c st)).2).2).2) := by
  have hstate : c8state a b c st =
      { queue := [pyLower c], priority := [pyLower a, pyLower b],
        seen := (c8state a b c st).seen } := by
    unfold c8state enqueue enqueue_priority
    simp only [ha, hb, hc, if_neg, hpq, hq]
    split_ifs with h1 h2 h2 <;>
      simp_all [List.contains_cons, hca, hcb, hcs]
  rw [hstate]
  simp [next_new]

/-- C7 witness: the theorem applied to the empty queue state and the
concrete address `"0xAb"`. -/
theorem claim_C7_witness :
    ("0xAb" ≠ "" ∧ queueInit.seen.contains (pyLower "0xAb") = false ∧
      countEntries queueInit (pyLower "0xAb") = 0) ∧
    countEntries (enqueue "0xAb" (enqueue "0xAb" queueInit)) (pyLower "0xAb") = 1 ∧
    countEntries (enqueue_priority "0xAb" (enqueue "0xAb" queueInit)) (pyLower "0xAb") = 2 :=
  ⟨⟨by decide, by decide, by decide⟩,
   claim_C7 queueInit "0xAb" (by decide) (by decide) (by decide)⟩

/-- C8 witness: the theorem applied to the empty queue state and the
concrete addresses `"A"`, `"B"`, `"C"`. -/
theorem claim_C8_witness :
    (queueInit.priority = [] ∧ queueInit.queue = [] ∧
      "A" ≠ "" ∧ "B" ≠ "" ∧ "C" ≠ "" ∧
      queueInit.seen.contains (pyLower "C") = false ∧
      pyLower "C" ≠ pyLower "A" ∧ pyLower "C" ≠ pyLower "B") ∧
    ((next_new (c8state "A" "B" "C" queueInit)).1 = some (pyLower "A") ∧
      (next_new (next_new (c8state "A" "B" "C" queueInit)).2).1 = some (pyLower "B") ∧
      (next_new (next_new (next_new (c8state "A" "B" "C" queueInit)).2).2).1 =
        some (pyLower "C") ∧
      next_new (next_new (next_new (next_new (c8state "A" "B" "C" queueInit)).2).2).2 =
        (none, (next_new (next_new (next_new (c8state "A" "B" "C" queueInit)).2).2).2)) :=
  ⟨⟨rfl, rfl, by decide, by decide, by decide, by decide, by decide, by decide⟩,
   claim_C8 queueInit "A" "B" "C" rfl rfl (by decide) (by decide) (by decide)
     (by decide) (by decide) (by decide)⟩

/-- `get_work_id` from scanner/idempotent_worker.py builds
`sha256(f"{address.lower()}:{work_type}").hexdigest()`.  The hash is
modelled by the hashed string itself: every claim about the ledger
depends only on equality of identities, and sha256 is collision-free on
the identities in play, so the encoding string is a faithful stand-in
for its digest. -/
def get_work_id (address : String) (work_type : String) : String :=
  pyLower address ++ ":" ++ work_type

/-- The persisted ledger of scanner/idempotent_worker.py
(`processed.json`): the processed id set, the id → completion-timestamp
map and the id → result map, modelled in memory and threaded
explicitly.  `ρ` is the work-result type. -/
structure Ledger (ρ : Type) where
  processed : List String
  timestamps : List (String × Nat)
  results : List (String × ρ)

/-- `timestamps.get(work_id, 0)`. -/
def lookupTs (ts : List (String × Nat)) (k : String) : Nat :=
  match ts.find? (fun p => p.1 == k) with
  | some p => p.2
  | none => 0

/-- Dictionary update `d[k] = v`. -/
def updateAssoc {α : Type} (l : List (String × α)) (k : String) (v : α) :
    List (String × α) :=
  (k, v) :: l.filter (fun p => !(p.1 == k))

/-- `save_processed` from scanner/idempotent_worker.py: add the id to
the processed set and record the completion time and the result. -/
def save_processed {ρ : Type} (led : Ledger ρ) (now : Nat) (work_id : String)
    (result : ρ) : Ledger ρ :=
  { processed :=
      if led.processed.contains work_id then led.processed else work_id :: led.processed
    timestamps := updateAssoc led.timestamps work_id now
    results := updateAssoc led.results work_id result }

/-- `is_processed` from scanner/idempotent_worker.py: `True` iff the id
is recorded and, when `ttl > 0`, no more than `ttl` seconds have passed
since the recorded completion. -/
def is_processed {ρ : Type} (led : Ledger ρ) (now : Nat)
    (address work_type : String) (ttl : Nat) : Bool :=
  let work_id := get_work_id address work_type
  if led.processed.contains work_id = false then false
  else if 0 < ttl ∧ ttl < now - lookupTs led.timestamps work_id then false
  else true

/-- Outcome of the first call `work_function(address)`: a value, a
`TypeError` (triggering the zero-argument retry in the source), or any
other exception. -/
inductive CallOutcome (ε ρ : Type) where
  | ok (r : ρ)
  | typeError
  | raise (e : ε)

/-- The `try: work_function(address) except TypeError: work_function()`
sequence: `retry` is the outcome of the zero-argument call, consulted
only on a `TypeError`; any exception it raises propagates too. -/
def runWorkCall {ε ρ : Type} (first : CallOutcome ε ρ) (retry : Except ε ρ) :
    Except ε ρ :=
  match first with
  | .ok r => Except.ok r
  | .raise e => Except.error e
  | .typeError => retry

/-- `idempotent_work` from scanner/idempotent_worker.py: skip when
already processed within the TTL, otherwise run the work function and
record the result; an exception escapes before `save_processed` runs,
leaving the ledger untouched. -/
def idempotent_work {ε ρ : Type} (led : Ledger ρ) (now : Nat) (address : String)
    (first : CallOutcome ε ρ) (retry : Except ε ρ)
    (work_type : String) (ttl : Nat) : Except ε (Option ρ) × Ledger ρ :=
  if is_processed led now address work_type ttl then (Except.ok none, led)
  else
    match runWorkCall first retry with
    | Except.error e => (Except.error e, led)
    | Except.ok result =>
      (Except.ok (some result),
        save_processed led now (get_work_id address work_type) result)

/-- C2 (confirmed).  With a completion for the identity recorded at time
`t₁`: a call at `t₂` with `t₂ - t₁ ≤ ttl` (ttl positive) returns `None`
and leaves the ledger unchanged without consulting the work function; a
call with `ttl < t₂ - t₁` executes the work function again and
re-records; with `ttl = 0` the recorded completion suppresses
re-execution at every later time. -/
theorem claim_C2 {ε ρ : Type} (led : Ledger ρ) (address work_type : String)
    (t₁ ttl t₂ : Nat) (first : CallOutcome ε ρ) (retry : Except ε ρ) (r : ρ)
    (hmem : led.processed.contains (get_work_id address work_type) = true)
    (hts : lookupTs led.timestamps (get_work_id address work_type) = t₁) :
    (0 < ttl → t₂ - t₁ ≤ ttl →
      idempotent_work led t₂ address first retry work_type ttl = (Except.ok none, led)) ∧
    (0 < ttl → ttl < t₂ - t₁ →
      idempotent_work led t₂ address (CallOutcome.ok r) retry work_type ttl =
        (Except.ok (some r), save_processed led t₂ (get_work_id address work_type) r)) ∧
    idempotent_work led t₂ address first retry work_type 0 = (Except.ok none, led) := by
  refine ⟨fun h1 h2 => ?_, fun h1 h2 => ?_, ?_⟩
  · have hip : is_processed led t₂ address work_type ttl = true := by
      simp only [is_processed, hmem, hts]
      simp only [Bool.true_eq_false, if_false]
      rw [if_neg (by omega)]
    simp [idempotent_work, hip]
  · have hip : is_processed led t₂ address work_type ttl = false := by
      simp only [is_processed, hmem, hts]
      simp only [Bool.true_eq_false, if_false]
      rw [if_pos (by omega)]
    simp [idempotent_work, hip, runWorkCall]
  · have hip : is_processed led t₂ address work_type 0 = true := by
      simp only [is_processed, hmem, hts]
      simp only [Bool.true_eq_false, if_false]
      rw [if_neg (by omega)]
    simp [idempotent_work, hip]

/-- The concrete ledger used by the C2 witness: the identity
`"0xaa:default"` completed at time 100 with result 7. -/
def c2led : Ledger Nat :=
  ⟨["0xaa:default"], [("0xaa:default", 100)], [("0xaa:default", 7)]⟩

/-- C2 witness: the theorem applied to `c2led` at times 100/120 with
`ttl = 50`. -/
theorem claim_C2_witness :
    (c2led.processed.contains (get_work_id "0xAA" "default") = true ∧
      lookupTs c2led.timestamps (get_work_id "0xAA" "default") = 100) ∧
    ((0 < 50 → 120 - 100 ≤ 50 →
        idempotent_work c2led 120 "0xAA" (CallOutcome.ok 9 : CallOutcome String Nat)
            (Except.ok 9) "default" 50 =
          (Except.ok none, c2led)) ∧
      (0 < 50 → 50 < 120 - 100 →
        idempotent_work c2led 120 "0xAA" (CallOutcome.ok 9 : CallOutcome String Nat)
            (Except.ok 9) "default" 50 =
          (Except.ok (some 9), save_processed c2led 120 (get_work_id "0xAA" "default") 9)) ∧
      idempotent_work c2led 120 "0xAA" (CallOutcome.ok 9 : CallOutcome String Nat)
          (Except.ok 9) "default" 0 =
        (Except.ok none, c2led)) :=
  ⟨⟨by decide, by decide⟩,
   claim_C2 c2led "0xAA" "default" 100 50 120
     (CallOutcome.ok 9 : CallOutcome String Nat) (Except.ok 9) 9
     (by decide) (by decide)⟩

/-- C10 (confirmed).  When the identity is not recorded as processed and
the work function raises — directly, or via a `TypeError` whose
zero-argument retry raises — `idempotent_work` propagates the exception
and returns the ledger unchanged, so a subsequent call for the same
identity executes the work function again. -/
theorem claim_C10 {ε ρ : Type} (led : Ledger ρ) (now : Nat)
    (address work_type : String) (ttl : Nat) (e : ε) (retry : Except ε ρ) (r : ρ)
    (hnp : is_processed led now address work_type ttl = false) :
    idempotent_work led now address (CallOutcome.raise e) retry work_type ttl =
      (Except.error e, led) ∧
    idempotent_work led now address CallOutcome.typeError (Except.error e) work_type ttl =
      (Except.error e, led) ∧
    idempotent_work led now address (CallOutcome.ok r) retry work_type ttl =
      (Except.ok (some r), save_processed led now (get_work_id address work_type) r) := by
  refine ⟨?_, ?_, ?_⟩ <;> simp [idempotent_work, hnp, runWorkCall]

/-- C10 witness: the theorem applied to the empty ledger with a raising
work function. -/
theorem claim_C10_witness :
    is_processed (Ledger.mk [] [] ([] : List (String × Nat))) 5 "0xAA" "full" 60 = false ∧
    (idempotent_work (Ledger.mk [] [] ([] : List (String × Nat))) 5 "0xAA"
        (CallOutcome.raise "boom") (Except.ok 1) "full" 60 =
          (Except.error "boom", Ledger.mk [] [] []) ∧
      idempotent_work (Ledger.mk [] [] ([] : List (String × Nat))) 5 "0xAA"
        CallOutcome.typeError (Except.error "boom") "full" 60 =
          (Except.error "boom", Ledger.mk [] [] []) ∧
      idempotent_work (Ledger.mk [] [] ([] : List (String × Nat))) 5 "0xAA"
        (CallOutcome.ok 1 : CallOutcome String Nat) (Except.ok 1) "full" 60 =
          (Except.ok (some 1),
            save_processed (Ledger.mk [] [] []) 5 (get_work_id "0xAA" "full") 1)) :=
  ⟨by decide,
   claim_C10 (Ledger.mk [] [] ([] : List (String × Nat))) 5 "0xAA" "full" 60 "boom"
     (Except.ok 1) 1 (by decide)⟩

/-- `_cache_get` from scanner/fee_on_transfer_probe.py: a hit returns
the payload; an entry older than `max(ttl, 1)` seconds is deleted and
reported as a miss.  A cache is an association list keyed by the
checksummed token address, holding the write timestamp and the
payload. -/
def cache_get {α : Type} (now ttl : Nat) (cache : List (String × Nat × α))
    (key : String) : Option α × List (String × Nat × α) :=
  match cache.find? (fun p => p.1 == key) with
  | none => (none, cache)
  | some (_, ts, payload) =>
    if max ttl 1 < now - ts then (none, cache.filter (fun p => !(p.1 == key)))
    else (some payload, cache)

/-- `_cache_put` from scanner/fee_on_transfer_probe.py: store the
payload under the key with the current time (dictionary assignment). -/
def cache_put {α : Type} (now : Nat) (cache : List (String × Nat × α))
    (key : String) (payload : α) : List (String × Nat × α) :=
  (key, now, payload) :: cache.filter (fun p => !(p.1 == key))

/-- Backend behaviour seen by one `find_erc20_slots` run: whether the
overridden `balanceOf` (resp. `allowance`) read returns a nonzero value
at candidate slot `s`, and whether the surrounding `try` block raises (a
backend error; the per-call helpers already swallow their own
exceptions, so a raise aborts the whole scan before any slot is
accepted). -/
structure SlotProbeEnv where
  balHit : Nat → Bool
  allowHit : Nat → Bool
  raises : Bool

/-- The `for s in range(0, MAX + 1): ... break` scan: the first hit in
`0..maxSlot`, else the conventional default. -/
def findFirstHit (hit : Nat → Bool) (maxSlot : Nat) (dflt : Nat) : Nat :=
  match (List.range (maxSlot + 1)).find? hit with
  | some s => s
  | none => dflt

/-- `find_erc20_slots` from scanner/fee_on_transfer_probe.py: serve a
fresh cached pair if present; otherwise scan for the balance slot
(default 0) and the allowance slot (default 1) and cache the outcome —
the `_cache_put` at the end runs on every path, including after a
backend error, so failed discoveries are cached too. -/
def find_erc20_slots (env : SlotProbeEnv) (maxSlot now ttl : Nat)
    (cache : List (String × Nat × (Nat × Nat))) (token_key : String) :
    (Nat × Nat) × List (String × Nat × (Nat × Nat)) :=
  match cache_get now ttl cache token_key with
  | (some v, cache') => (v, cache')
  | (none, cache') =>
    let out :=
      if env.raises then ((0 : Nat), (1 : Nat))
      else (findFirstHit env.balHit maxSlot 0, findFirstHit env.allowHit maxSlot 1)
    (out, cache_put now cache' token_key out)

/-- The tax-probe result dictionary of `screen_token_tax`.  The Python
float `tax_pct` is modelled as an exact rational (no claim under
scrutiny depends on float rounding). -/
structure TaxResult where
  token : String
  taxed : Bool
  tax_pct : Rat
  transferred : Option Nat
  reason : Option String
deriving DecidableEq

/-- Backend behaviour seen by one `screen_token_tax` run: whether
`debug_traceCall` is supported, whether the `try` block raises after
slot discovery (slot discovery itself swallows its own errors), and the
Transfer-event values recovered from the trace logs. -/
structure TaxProbeEnv where
  traceSupported : Bool
  raises : Bool
  transferValues : List Nat

/-- `min(transfer_values)` for a nonempty list. -/
def minList (v : Nat) (vs : List Nat) : Nat := vs.foldl min v

/-- `screen_token_tax` from scanner/fee_on_transfer_probe.py: serve a
fresh cached result if present; otherwise produce the degraded
`debug_trace_disabled` result, or run slot discovery and the traced
transfer and compare delivered versus sent.  Every branch — missing
trace capability, backend error, no transfer logs, and success — ends
in `_cache_put`, so failures are cached alongside successes. -/
def screen_token_tax (env : TaxProbeEnv) (slotEnv : SlotProbeEnv)
    (maxSlot now ttl : Nat)
    (slotCache : List (String × Nat × (Nat × Nat)))
    (taxCache : List (String × Nat × TaxResult))
    (token_key : String) (amount_wei : Nat) :
    TaxResult × List (String × Nat × (Nat × Nat)) × List (String × Nat × TaxResult) :=
  match cache_get now ttl taxCache token_key with
  | (some v, taxCache') => (v, slotCache, taxCache')
  | (none, taxCache') =>
    if env.traceSupported = false then
      let out : TaxResult := ⟨token_key, false, 0, none, some "debug_trace_disabled"⟩
      (out, slotCache, cache_put now taxCache' token_key out)
    else
      let slotCache' := (find_erc20_slots slotEnv maxSlot now ttl slotCache token_key).2
      if env.raises then
        let out : TaxResult := ⟨token_key, false, 0, none, none⟩
        (out, slotCache', cache_put now taxCache' token_key out)
      else
        match env.transferValues with
        | [] =>
          let out : TaxResult := ⟨token_key, false, 0, none, none⟩
          (out, slotCache', cache_put now taxCache' token_key out)
        | v :: vs =>
          let m := minList v vs
          let pct : Rat :=
            if m < amount_wei then ((amount_wei : Rat) - (m : Rat)) / (amount_wei : Rat)
            else 0
          let out : TaxResult :=
            ⟨token_key, decide (m < amount_wei), pct, some m, none⟩
          (out, slotCache', cache_put now taxCache' token_key out)

theorem cachePut_mem {α : Type} (now : Nat) (c : List (String × Nat × α))
    (k : String) (v : α) :
    ((cache_put now c k v).find? (fun p => p.1 == k)).isSome = true := by
  unfold cache_put
  rw [List.find?_cons_of_pos]
  · rfl
  · simp

/-- C3 (corrected, caching direction reversed).  The TTL caches record
every completed lookup, not only successful ones: on a cache miss,
`find_erc20_slots` always leaves an entry for the token in the slot
cache (the default `(0, 1)` after a backend error), and
`screen_token_tax` always leaves an entry in the tax cache (including
the `debug_trace_disabled` degradation and the backend-error fallback),
so a subsequent call within the TTL is served the cached failure rather
than re-attempting the lookup. -/
theorem claim_C3 (env : TaxProbeEnv) (slotEnv : SlotProbeEnv)
    (maxSlot now ttl : Nat)
    (sc : List (String × Nat × (Nat × Nat)))
    (tc : List (String × Nat × TaxResult)) (key : String) (amount : Nat) :
    ((cache_get now ttl sc key).1 = none →
      (((find_erc20_slots slotEnv maxSlot now ttl sc key).2).find?
          (fun p => p.1 == key)).isSome = true) ∧
    ((cache_get now ttl tc key).1 = none →
      (((screen_token_tax env slotEnv maxSlot now ttl sc tc key amount).2.2).find?
          (fun p => p.1 == key)).isSome = true) := by
  constructor
  · intro h
    have hpair : cache_get now ttl sc key = (none, (cache_get now ttl sc key).2) :=
      Prod.ext h rfl
    unfold find_erc20_slots
    rw [hpair]
    exact cachePut_mem now ((cache_get now ttl sc key).2) key _
  · intro h
    have hpair : cache_get now ttl tc key = (none, (cache_get now ttl tc key).2) :=
      Prod.ext h rfl
    unfold screen_token_tax
    rw [hpair]
    cases henv : env.traceSupported with
    | false => exact cachePut_mem now ((cache_get now ttl tc key).2) key _
    | true =>
      cases hr : env.raises with
      | true => exact cachePut_mem now ((cache_get now ttl tc key).2) key _
      | false =>
        cases env.transferValues with
        | nil => exact cachePut_mem now ((cache_get now ttl tc key).2) key _
        | cons v vs => exact cachePut_mem now ((cache_get now ttl tc key).2) key _

/-- C3 witness: the theorem applied to empty caches, a trace-incapable
backend for the tax probe and an erroring backend for slot discovery. -/
theorem claim_C3_witness :
    ((cache_get 100 3600 ([] : List (String × Nat × (Nat × Nat))) "T").1 = none ∧
      (((find_erc20_slots ⟨fun _ => false, fun _ => false, true⟩ 3 100 3600 [] "T").2).find?
          (fun p => p.1 == "T")).isSome = true) ∧
    ((cache_get 100 3600 ([] : List (String × Nat × TaxResult)) "T").1 = none ∧
      (((screen_token_tax ⟨false, false, []⟩ ⟨fun _ => false, fun _ => false, true⟩
            3 100 3600 [] [] "T" 1000).2.2).find?
          (fun p => p.1 == "T")).isSome = true) :=
  ⟨⟨rfl,
    (claim_C3 ⟨false, false, []⟩ ⟨fun _ => false, fun _ => false, true⟩
        3 100 3600 [] [] "T" 1000).1 rfl⟩,
   ⟨rfl,
    (claim_C3 ⟨false, false, []⟩ ⟨fun _ => false, fun _ => false, true⟩
        3 100 3600 [] [] "T" 1000).2 rfl⟩⟩

/-- C3 counterexample to the claim as stated: after a
missing-trace-capability degradation the tax cache does hold an entry
for the token, and after a backend error during slot discovery the slot
cache holds the default `(0, 1)` for the token — the failed lookups are
cached, so the next call within the TTL does not re-attempt them. -/
theorem claim_C3_counterexample :
    ((screen_token_tax ⟨false, false, []⟩ ⟨fun _ => false, fun _ => false, false⟩
          3 100 3600 [] [] "T" 1000).2.2).find? (fun p => p.1 == "T") =
      some ("T", 100, ⟨"T", false, 0, none, some "debug_trace_disabled"⟩) ∧
    ((find_erc20_slots ⟨fun _ => false, fun _ => false, true⟩ 3 100 3600 [] "T").2).find?
        (fun p => p.1 == "T") = some ("T", 100, (0, 1)) := by
  constructor <;> rfl

/-- `set.add`. -/
def setAdd (l : List String) (k : String) : List String :=
  if l.contains k then l else k :: l

/-- `set.discard`. -/
def setDiscard (l : List String) (k : String) : List String :=
  l.filter (fun a => !(a == k))

/-- The module-level deep-probe dedup state of scanner/worker.py:
`_FOT_ADDR_LAST`, `_FOT_TOKEN_LAST`, `_FOT_ADDR_INFLIGHT`,
`_FOT_TOKEN_INFLIGHT`. -/
structure FotDedupState where
  addrLast : List (String × Nat)
  tokenLast : List (String × Nat)
  addrInflight : List String
  tokenInflight : List String
deriving DecidableEq

/-- The fields of the deep-probe result dictionary consulted on
completion: `res.get("token")`. -/
structure ProbeRes where
  token : Option String
deriving DecidableEq

/-- `_maybe_schedule_fot_deep` from scanner/worker.py, with
`Web3.to_checksum_address` abstracted as the key normalisation `cs`:
under the dedup lock, refuse while either key is in-flight or was
scheduled within the TTL, else record both timestamps and mark both
keys in-flight. -/
def maybe_schedule_fot_deep (cs : String → String) (ttlCfg now : Nat)
    (victim token : String) (st : FotDedupState) : Bool × FotDedupState :=
  let vkey := pyLower victim
  let tkey := cs token
  let ttl := max ttlCfg 1
  if st.addrInflight.contains vkey ∨ st.tokenInflight.contains tkey then (false, st)
  else if now - lookupTs st.addrLast vkey < ttl then (false, st)
  else if now - lookupTs st.tokenLast tkey < ttl then (false, st)
  else
    (true,
      { addrLast := updateAssoc st.addrLast vkey now
        tokenLast := updateAssoc st.tokenLast tkey now
        addrInflight := setAdd st.addrInflight vkey
        tokenInflight := setAdd st.tokenInflight tkey })

/-- The `finally` clause of `_run_fot_deep` from scanner/worker.py: the
victim key is always discarded from the address in-flight set, but the
token in-flight set is only cleaned when the probe produced a result
carrying a token (`tok` is `None` after an exception), and then only for
that reported token.  The probe outcome is `Except.error` when
`probe_fee_on_transfer` raised. -/
def run_fot_deep_finish (cs : String → String) (victim : String)
    (outcome : Except String ProbeRes) (st : FotDedupState) : FotDedupState :=
  let tok : Option String :=
    match outcome with
    | Except.ok r => r.token
    | Except.error _ => none
  { st with
      addrInflight := setDiscard st.addrInflight (pyLower victim)
      tokenInflight :=
        match tok with
        | some t => setDiscard st.tokenInflight (cs t)
        | none => st.tokenInflight }

theorem contains_setDiscard (l : List String) (k : String) :
    (setDiscard l k).contains k = false := by
  simp [setDiscard, List.mem_filter]

/-- C4 (corrected in its completion half).  Scheduling atomically marks
both the victim key and the token key in-flight and refuses while either
is in-flight or within the dedup TTL — that half of the claim holds.
Completion, however, always clears only the victim-address mark: after a
raised exception the token mark is left in place (`tok` is `None`), and
on success only the mark of the token reported by the probe result is
cleared. -/
theorem claim_C4 (cs : String → String) (ttlCfg now : Nat)
    (victim token t : String) (st : FotDedupState)
    (outcome : Except String ProbeRes) (e : String) :
    ((st.addrInflight.contains (pyLower victim) = true ∨
        st.tokenInflight.contains (cs token) = true) →
      maybe_schedule_fot_deep cs ttlCfg now victim token st = (false, st)) ∧
    (now - lookupTs st.addrLast (pyLower victim) < max ttlCfg 1 →
      maybe_schedule_fot_deep cs ttlCfg now victim token st = (false, st)) ∧
    (now - lookupTs st.tokenLast (cs token) < max ttlCfg 1 →
      maybe_schedule_fot_deep cs ttlCfg now victim token st = (false, st)) ∧
    (st.addrInflight.contains (pyLower victim) = false →
      st.tokenInflight.contains (cs token) = false →
      max ttlCfg 1 ≤ now - lookupTs st.addrLast (pyLower victim) →
      max ttlCfg 1 ≤ now - lookupTs st.tokenLast (cs token) →
      maybe_schedule_fot_deep cs ttlCfg now victim token st =
        (true,
          { addrLast := updateAssoc st.addrLast (pyLower victim) now
            tokenLast := updateAssoc st.tokenLast (cs token) now
            addrInflight := setAdd st.addrInflight (pyLower victim)
            tokenInflight := setAdd st.tokenInflight (cs token) })) ∧
    ((run_fot_deep_finish cs victim outcome st).addrInflight.contains
        (pyLower victim) = false) ∧
    (run_fot_deep_finish cs victim (Except.error e) st =
      { st with addrInflight := setDiscard st.addrInflight (pyLower victim) }) ∧
    ((run_fot_deep_finish cs victim (Except.ok ⟨some t⟩) st).tokenInflight.contains
        (cs t) = false) := by
  refine ⟨fun h => ?_, fun h => ?_, fun h => ?_, fun h1 h2 h3 h4 => ?_, ?_, ?_, ?_⟩
  · unfold maybe_schedule_fot_deep
    rw [if_pos h]
  · unfold maybe_schedule_fot_deep
    by_cases h0 : st.addrInflight.contains (pyLower victim) = true ∨
        st.tokenInflight.contains (cs token) = true
    · rw [if_pos h0]
    · rw [if_neg h0, if_pos h]
  · unfold maybe_schedule_fot_deep
    by_cases h0 : st.addrInflight.contains (pyLower victim) = true ∨
        st.tokenInflight.contains (cs token) = true
    · rw [if_pos h0]
    · rw [if_neg h0]
      by_cases h1 : now - lookupTs st.addrLast (pyLower victim) < max ttlCfg 1
      · rw [if_pos h1]
      · rw [if_neg h1, if_pos h]
  · have h1' : pyLower victim ∉ st.addrInflight := by simpa using h1
    have h2' : cs token ∉ st.tokenInflight := by simpa using h2
    unfold maybe_schedule_fot_deep
    rw [if_neg (by simp [h1', h2']), if_neg (by omega), if_neg (by omega)]
  · unfold run_fot_deep_finish
    exact contains_setDiscard _ _
  · rfl
  · unfold run_fot_deep_finish
    exact contains_setDiscard _ _

/-- The clean dedup state used by the C4 witness and counterexample. -/
def c4st0 : FotDedupState := ⟨[], [], [], []⟩

/-- The dedup state right after scheduling victim `"V"` with token
`"T"` at time 100 (TTL configuration 60) from the clean state. -/
def c4st1 : FotDedupState :=
  (maybe_schedule_fot_deep (fun s => s) 60 100 "V" "T" c4st0).2

/-- C4 witness: the theorem applied with the identity checksum map to
the clean state (scheduling succeeds and marks both keys) and to the
just-scheduled state (rescheduling refuses; completion clears marks as
stated). -/
theorem claim_C4_witness :
    (c4st0.addrInflight.contains (pyLower "V") = false ∧
      c4st0.tokenInflight.contains "T" = false ∧
      max 60 1 ≤ 100 - lookupTs c4st0.addrLast (pyLower "V") ∧
      max 60 1 ≤ 100 - lookupTs c4st0.tokenLast "T" ∧
      maybe_schedule_fot_deep (fun s => s) 60 100 "V" "T" c4st0 =
        (true,
          { addrLast := updateAssoc c4st0.addrLast (pyLower "V") 100
            tokenLast := updateAssoc c4st0.tokenLast "T" 100
            addrInflight := setAdd c4st0.addrInflight (pyLower "V")
            tokenInflight := setAdd c4st0.tokenInflight "T" })) ∧
    (c4st1.addrInflight.contains (pyLower "V") = true ∧
      maybe_schedule_fot_deep (fun s => s) 60 100 "V" "T" c4st1 = (false, c4st1)) ∧
    ((run_fot_deep_finish (fun s => s) "V" (Except.ok ⟨some "T"⟩) c4st1).tokenInflight.contains
        "T" = false) :=
  ⟨⟨by decide, by decide, by decide, by decide,
    (claim_C4 (fun s => s) 60 100 "V" "T" "T" c4st0 (Except.ok ⟨some "T"⟩) "e").2.2.2.1
      (by decide) (by decide) (by decide) (by decide)⟩,
   ⟨by decide,
    (claim_C4 (fun s => s) 60 100 "V" "T" "T" c4st1 (Except.ok ⟨some "T"⟩) "e").1
      (Or.inl (by decide))⟩,
   (claim_C4 (fun s => s) 60 100 "V" "T" "T" c4st1 (Except.ok ⟨some "T"⟩) "e").2.2.2.2.2.2⟩

/-- C4 counterexample to the claim as stated: after scheduling `"V"` /
`"T"`, a completion that raises clears the victim-address mark but
leaves the token `"T"` marked in-flight — completion does not clear both
marks. -/
theorem claim_C4_counterexample :
    c4st1.tokenInflight = ["T"] ∧
    (run_fot_deep_finish (fun s => s) "V" (Except.error "boom") c4st1).addrInflight = [] ∧
    (run_fot_deep_finish (fun s => s) "V" (Except.error "boom") c4st1).tokenInflight = ["T"] := by
  refine ⟨rfl, rfl, rfl⟩

end BotScanner
